import Mathlib

/-!
A shallow embedding of the feed-aggregation core of the repository
(`src/services/feed.service.ts`) together with the relevant rows of the
relational schema (`src/db/schema/*`), and proofs about it.

Conventions of the embedding:
* each relational table is a list of rows in storage order; column types
  follow the drizzle schema (`.notNull()` columns are plain fields,
  nullable columns are `Option`);
* timestamps are integers (millisecond epoch values, as produced by
  JavaScript `Date.getTime`);
* SQL `ORDER BY x DESC` and JavaScript `Array.prototype.sort` (stable
  since ES2019) are both embedded as a stable insertion sort by the
  corresponding comparator;
* `async` functions that can throw `HTTPException` are embedded as
  functions into `Except String`, the error string standing for the
  HTTP 500 message thrown at that site.
-/

namespace Feed

/-- Row of `users` (`src/db/schema`, part defining `users`): `username`
is `notNull`, `avatar_url` is nullable. Only the columns selected by the
feed service are modelled. -/
structure UserRow where
  id : Nat
  username : String
  avatarUrl : Option String
deriving Repr, DecidableEq

/-- Row of `items` (`src/db/schema/items.ts`): `name` is `notNull`,
`default_photo_id` is nullable. -/
structure ItemRow where
  id : Nat
  name : String
  defaultPhotoId : Option Nat
deriving Repr, DecidableEq

/-- Row of `photos`: `url` is `notNull` (but may be the empty string). -/
structure PhotoRow where
  id : Nat
  url : String
deriving Repr, DecidableEq

/-- Row of `posts` (`src/db/schema/posts.ts`): `item_id`, `author_id`
and `content` are `notNull`; `created_at` is `timestamp ... .defaultNow()`
with no `.notNull()`, hence nullable, hence `Option Int`. -/
structure PostRow where
  id : Nat
  itemId : Nat
  authorId : Nat
  content : String
  createdAt : Option Int
deriving Repr, DecidableEq

/-- Row of `tags`: `name` is `notNull`. -/
structure TagRow where
  id : Nat
  name : String
deriving Repr, DecidableEq

/-- The database state read by the feed service.  `follows` holds
`(follower_id, followee_id)` pairs, `tagFollows` holds
`(follower_id, tag_id)` pairs, `postTags` holds `(post_id, tag_id)`
pairs; `likes` and `comments` are abstracted to the `post_id` column,
the only one the feed service's `COUNT(*)` subqueries consult. -/
structure DB where
  users : List UserRow
  items : List ItemRow
  photos : List PhotoRow
  posts : List PostRow
  tags : List TagRow
  follows : List (Nat × Nat)
  tagFollows : List (Nat × Nat)
  postTags : List (Nat × Nat)
  likes : List Nat
  comments : List Nat
deriving Repr

/-- Tag summary attached to a feed entry (`TagInfo` in the source). -/
structure TagInfo where
  id : Nat
  name : String
deriving Repr, DecidableEq

/-- Author summary embedded in a feed entry. -/
structure AuthorInfo where
  id : Nat
  username : String
  avatarUrl : Option String
deriving Repr, DecidableEq

/-- Item summary embedded in a feed entry, with the resolved image URL. -/
structure ItemInfo where
  id : Nat
  name : String
  imageUrl : Option String
deriving Repr, DecidableEq

/-- A fully validated feed entry: the parse result of `FeedPostSchema`
(`z.date()` forces `createdAt` to be an actual date, hence `Int` here).
Note `FeedPostSchema` is a plain `z.object`, which strips unknown keys,
so the `itemId` spread into the intermediate object does not survive. -/
structure FeedPost where
  id : Nat
  content : String
  createdAt : Int
  author : AuthorInfo
  item : ItemInfo
  likesCount : Nat
  commentsCount : Nat
  tags : List TagInfo
deriving Repr, DecidableEq

/-- A feed entry before `FeedPostsListSchema.parse`: `createdAt` still
has the nullable type it has in the `posts` table. -/
structure RawFeedPost where
  id : Nat
  content : String
  createdAt : Option Int
  author : AuthorInfo
  item : ItemInfo
  likesCount : Nat
  commentsCount : Nat
  tags : List TagInfo
deriving Repr, DecidableEq

/-- The columns selected by the big `db.select({...})` in both feed
queries, before the per-row enrichment map (tags, item image URL). -/
structure SelectedRow where
  id : Nat
  content : String
  createdAt : Option Int
  itemId : Nat
  author : AuthorInfo
  itemIdCol : Nat
  itemName : String
  likesCount : Nat
  commentsCount : Nat
deriving Repr, DecidableEq

/-- Stable insertion of `x` into `l`: `x` is placed before the first
element `y` with `le x y`.  With `le x y = (compare x y ≤ 0)` this is
exactly where a stable comparator sort puts an element that precedes
all of `l` in the input. -/
def stableInsert (le : α → α → Bool) (x : α) : List α → List α
  | [] => [x]
  | y :: ys => if le x y then x :: y :: ys else y :: stableInsert le x ys

/-- Stable sort by the boolean comparator `le` (embedding of SQL
`ORDER BY` and of `Array.prototype.sort`, both stable). -/
def stableSort (le : α → α → Bool) : List α → List α
  | [] => []
  | x :: xs => stableInsert le x (stableSort le xs)

/-- Descending `created_at` order used by `orderBy(desc(posts.createdAt))`.
A SQL NULL sorts first under `DESC` (Postgres default `NULLS FIRST`). -/
def rowLeDesc (a b : SelectedRow) : Bool :=
  match a.createdAt, b.createdAt with
  | none, _ => true
  | some _, none => false
  | some x, some y => y ≤ x

/-- Comparator of the in-memory sort in `getCombinedFeed`
(`(a, b) => new Date(b.createdAt).getTime() - new Date(a.createdAt).getTime()`):
`a` may precede `b` iff `b.createdAt ≤ a.createdAt`. -/
def feedLeDesc (a b : FeedPost) : Bool :=
  b.createdAt ≤ a.createdAt

/-- `getItemImageUrl` (feed.service.ts lines 55–75): follow the item's
`defaultPhotoId` to a photo URL; any missing link yields `null`.  The
final `photo?.url || null` maps an empty URL string to `null`. -/
def getItemImageUrl (db : DB) (itemId : Nat) : Option String :=
  match db.items.find? (fun i => i.id == itemId) with
  | none => none
  | some item =>
    match item.defaultPhotoId with
    | none => none
    | some photoId =>
      match db.photos.find? (fun p => p.id == photoId) with
      | none => none
      | some photo => if photo.url = "" then none else some photo.url

/-- `(SELECT COUNT(*) FROM likes WHERE likes.post_id = posts.id)`. -/
def likesCountOf (db : DB) (postId : Nat) : Nat :=
  (db.likes.filter (fun l => l == postId)).length

/-- `(SELECT COUNT(*) FROM comments WHERE comments.post_id = posts.id)`. -/
def commentsCountOf (db : DB) (postId : Nat) : Nat :=
  (db.comments.filter (fun c => c == postId)).length

/-- One row of the feed `select` for a given post: the two
`innerJoin`s on `users.id = posts.authorId` and `items.id = posts.itemId`
join on primary keys, so each resolves to at most one row (`find?`);
a post whose author or item row is missing produces no row at all. -/
def selectFeedRow (db : DB) (post : PostRow) : Option SelectedRow :=
  match db.users.find? (fun u => u.id == post.authorId) with
  | none => none
  | some author =>
    match db.items.find? (fun i => i.id == post.itemId) with
    | none => none
    | some item =>
      some
        { id := post.id
          content := post.content
          createdAt := post.createdAt
          itemId := post.itemId
          author := ⟨author.id, author.username, author.avatarUrl⟩
          itemIdCol := item.id
          itemName := item.name
          likesCount := likesCountOf db post.id
          commentsCount := commentsCountOf db post.id }

/-- The shared shape of the two feed queries: join `posts` with `users`
and `items`, keep the posts satisfying the `where` condition, order by
`created_at` descending, then apply `OFFSET`/`LIMIT`. -/
def queryFeedPosts (db : DB) (cond : PostRow → Bool) (limit offset : Nat) :
    List SelectedRow :=
  (((stableSort rowLeDesc
      ((db.posts.filter cond).filterMap (selectFeedRow db))).drop offset).take limit)

/-- Tag summaries of one post: `postTags` filtered by `post_id`,
inner-joined with `tags` on its primary key. -/
def tagsForPost (db : DB) (postId : Nat) : List TagInfo :=
  (db.postTags.filter (fun pt => pt.1 == postId)).filterMap
    (fun pt => (db.tags.find? (fun t => t.id == pt.2)).map (fun t => ⟨t.id, t.name⟩))

/-- The per-row enrichment map of both feed functions: attach the tag
list and the resolved item image URL to a selected row. -/
def enrichRow (db : DB) (row : SelectedRow) : RawFeedPost :=
  { id := row.id
    content := row.content
    createdAt := row.createdAt
    author := row.author
    item := ⟨row.itemIdCol, row.itemName, getItemImageUrl db row.itemId⟩
    likesCount := row.likesCount
    commentsCount := row.commentsCount
    tags := tagsForPost db row.id }

/-- Validity of one raw row under `FeedPostSchema`.  Every field of
`RawFeedPost` already satisfies its zod constraint by the column types
of the schema (`content` a string, counts non-negative integers,
`author`/`item` present thanks to the inner joins) except `createdAt`:
`z.date()` rejects a SQL NULL `created_at`. -/
def validRow (r : RawFeedPost) : Bool :=
  r.createdAt.isSome

/-- Conversion of a raw row that passed validation. -/
def toFeedPost (r : RawFeedPost) : FeedPost :=
  { id := r.id
    content := r.content
    createdAt := r.createdAt.getD 0
    author := r.author
    item := r.item
    likesCount := r.likesCount
    commentsCount := r.commentsCount
    tags := r.tags }

/-- Re-embedding of an already validated entry as a raw row (used where
the source re-runs `FeedPostsListSchema.parse` on already parsed data
in `getCombinedFeed`). -/
def toRaw (p : FeedPost) : RawFeedPost :=
  { id := p.id
    content := p.content
    createdAt := some p.createdAt
    author := p.author
    item := p.item
    likesCount := p.likesCount
    commentsCount := p.commentsCount
    tags := p.tags }

/-- `FeedPostsListSchema.parse`: zod's `parse` on an array succeeds with
the converted list iff every element validates, and otherwise throws —
caught by the source and rethrown as `HTTPException(500, msg)`. -/
def parseFeedList (msg : String) (rows : List RawFeedPost) :
    Except String (List FeedPost) :=
  if rows.all validRow then .ok (rows.map toFeedPost) else .error msg

/-- SQL `GROUP BY post_id` over the candidate `postTags` rows: one row
per distinct post id.  `GROUP BY` without `ORDER BY` fixes no order; we
pick first-occurrence order, which is irrelevant downstream (the ids are
only used as the set filtered against and for an emptiness test). -/
def dedupNat (l : List Nat) : List Nat :=
  l.foldl (fun acc x => if acc.contains x then acc else acc ++ [x]) []

/-- `Map.prototype.set` on an association list: setting an existing key
replaces its value in place (keeping the key's original insertion
position); a new key is appended. -/
def mapSet (m : List (Nat × FeedPost)) (k : Nat) (v : FeedPost) :
    List (Nat × FeedPost) :=
  if m.any (fun e => e.1 == k) then
    m.map (fun e => if e.1 == k then (k, v) else e)
  else m ++ [(k, v)]

/-- `Array.from(new Map(combinedFeed.map((post) => [post.id, post])).values())`:
build a JavaScript `Map` keyed by post id by successive `set`s, then
list its values in key insertion order. -/
def dedupById (l : List FeedPost) : List FeedPost :=
  (l.foldl (fun m p => mapSet m p.id p) []).map (fun e => e.2)

/-- The enriched row list of `getFollowingUsersFeed` (lines 98–161):
posts authored by a followed user, newest first, paginated at the
source, then enriched. -/
def usersFeedRows (db : DB) (userId : Nat) (limit offset : Nat) :
    List RawFeedPost :=
  (queryFeedPosts db
    (fun p => (((db.follows.filter (fun f => f.1 == userId)).map (fun f => f.2))).contains
      p.authorId) limit offset).map (enrichRow db)

/-- `getFollowingUsersFeed` (feed.service.ts lines 84–174).  The error
strings stand for the two `HTTPException(500, …)` messages of the
source (validation failure, and the catch-all). -/
def getFollowingUsersFeed (db : DB) (userId : Nat) (limit offset : Nat) :
    Except String (List FeedPost) :=
  if (db.follows.filter (fun f => f.1 == userId)).length == 0 then .ok []
  else parseFeedList "users_feed_validation_failed" (usersFeedRows db userId limit offset)

/-- The candidate post ids of the tags feed (lines 200–211): `postTags`
rows whose tag is followed, grouped by `post_id`. -/
def candidateTagPostIds (db : DB) (userId : Nat) : List Nat :=
  dedupNat ((db.postTags.filter
    (fun pt => (((db.tagFollows.filter (fun f => f.1 == userId)).map (fun f => f.2))).contains
      pt.2)).map (fun pt => pt.1))

/-- The enriched row list of `getFollowingTagsFeed` (lines 211–274). -/
def tagsFeedRows (db : DB) (userId : Nat) (limit offset : Nat) :
    List RawFeedPost :=
  (queryFeedPosts db (fun p => (candidateTagPostIds db userId).contains p.id) limit offset).map
    (enrichRow db)

/-- `getFollowingTagsFeed` (feed.service.ts lines 183–287). -/
def getFollowingTagsFeed (db : DB) (userId : Nat) (limit offset : Nat) :
    Except String (List FeedPost) :=
  if (db.tagFollows.filter (fun f => f.1 == userId)).length == 0 then .ok []
  else if (candidateTagPostIds db userId).length == 0 then .ok []
  else parseFeedList "tags_feed_validation_failed" (tagsFeedRows db userId limit offset)

/-- `getCombinedFeed` (feed.service.ts lines 296–327): fetch both
sources with the fixed window `(100, 0)`, concatenate (users first),
deduplicate by post id through a JavaScript `Map`, sort by
`createdAt` descending, slice `[offset, offset+limit)`, and re-parse.
An `HTTPException` thrown by either source propagates unchanged. -/
def getCombinedFeed (db : DB) (userId : Nat) (limit offset : Nat) :
    Except String (List FeedPost) :=
  match getFollowingUsersFeed db userId 100 0 with
  | .error e => .error e
  | .ok usersFeed =>
    match getFollowingTagsFeed db userId 100 0 with
    | .error e => .error e
    | .ok tagsFeed =>
      let combinedFeed := usersFeed ++ tagsFeed
      let uniquePosts := dedupById combinedFeed
      let sortedPosts := stableSort feedLeDesc uniquePosts
      let paginatedPosts := (sortedPosts.drop offset).take limit
      parseFeedList "combined_feed_validation_failed" (paginatedPosts.map toRaw)

/-- The source's `sortedPosts` intermediate (lines 299–311): the merged,
deduplicated set of both over-fetched sources, sorted by creation time
descending — the set `getCombinedFeed` paginates. -/
def mergedSortedSet (db : DB) (userId : Nat) : Except String (List FeedPost) :=
  (getFollowingUsersFeed db userId 100 0).bind fun usersFeed =>
    (getFollowingTagsFeed db userId 100 0).map fun tagsFeed =>
      stableSort feedLeDesc (dedupById (usersFeed ++ tagsFeed))

/-! ### Concrete databases used by the scenario theorems and witnesses -/

/-- The spec's concrete scenario (§8): viewer 10 follows users 1 (A) and
2 (B); A posted at t=3 (post 1) and t=1 (post 2), B at t=2 (post 3);
viewer 10 follows tag 7 (T); stranger 3 (C) posted at t=4 (post 4)
carrying tag 7. -/
def dbC5 : DB :=
  { users := [⟨10, "U", none⟩, ⟨1, "A", none⟩, ⟨2, "B", none⟩, ⟨3, "C", none⟩]
    items := [⟨1, "item", none⟩]
    photos := []
    posts := [⟨1, 1, 1, "a3", some 3⟩, ⟨2, 1, 1, "a1", some 1⟩,
              ⟨3, 1, 2, "b2", some 2⟩, ⟨4, 1, 3, "c4", some 4⟩]
    tags := [⟨7, "T"⟩]
    follows := [(10, 1), (10, 2)]
    tagFollows := [(10, 7)]
    postTags := [(4, 7)]
    likes := []
    comments := [] }

/-- Same scenario, but A's t=3 post (post 1) also carries tag 7. -/
def dbC5b : DB := { dbC5 with postTags := [(4, 7), (1, 7)] }

/-- Expected feed entry of post 4 (t=4, by C, tagged T). -/
def entryT4 : FeedPost := ⟨4, "c4", 4, ⟨3, "C", none⟩, ⟨1, "item", none⟩, 0, 0, [⟨7, "T"⟩]⟩

/-- Expected feed entry of post 1 (t=3, by A). -/
def entryT3 : FeedPost := ⟨1, "a3", 3, ⟨1, "A", none⟩, ⟨1, "item", none⟩, 0, 0, []⟩

/-- Expected feed entry of post 3 (t=2, by B). -/
def entryT2 : FeedPost := ⟨3, "b2", 2, ⟨2, "B", none⟩, ⟨1, "item", none⟩, 0, 0, []⟩

/-- Expected feed entry of post 2 (t=1, by A). -/
def entryT1 : FeedPost := ⟨2, "a1", 1, ⟨1, "A", none⟩, ⟨1, "item", none⟩, 0, 0, []⟩

/-- Post 1's entry in the second scenario, where it also carries tag T. -/
def entryT3tagged : FeedPost := { entryT3 with tags := [⟨7, "T"⟩] }

/-- A database whose single post has a NULL `created_at`: its enriched
row fails `FeedPostSchema` validation (`z.date()`). -/
def badDb : DB :=
  { users := [⟨1, "A", none⟩]
    items := [⟨1, "item", none⟩]
    photos := []
    posts := [⟨1, 1, 1, "x", none⟩]
    tags := []
    follows := [(10, 1)]
    tagFollows := []
    postTags := []
    likes := []
    comments := [] }

/-- A database where viewer 10 follows no user and no tag (only user 9
has relationships), while posts exist. -/
def dbNoFollows : DB :=
  { users := [⟨1, "A", none⟩]
    items := [⟨1, "item", none⟩]
    photos := []
    posts := [⟨1, 1, 1, "x", some 1⟩]
    tags := [⟨7, "T"⟩]
    follows := [(9, 1)]
    tagFollows := [(9, 7)]
    postTags := [(1, 7)]
    likes := []
    comments := [] }

/-- A live post (id 1, author 1) next to a dangling post (id 2) whose
author 99 has no `users` row. -/
def pGood : PostRow := ⟨1, 1, 1, "ok", some 5⟩

/-- The dangling post: its author id 99 resolves to no live user row. -/
def pDead : PostRow := ⟨2, 1, 99, "orphan", some 6⟩

/-- Database containing both `pGood` and the dangling `pDead`. -/
def dbDangling : DB :=
  { users := [⟨1, "A", none⟩]
    items := [⟨1, "item", none⟩]
    photos := []
    posts := [pGood, pDead]
    tags := []
    follows := [(10, 1)]
    tagFollows := []
    postTags := []
    likes := []
    comments := [] }

/-- A users-feed entry of a hypothetical post id 1 (the spec's
"sources disagree on content for the same id" scenario). -/
def usersEntry : FeedPost :=
  ⟨1, "from users feed", 5, ⟨2, "alice", none⟩, ⟨3, "camera", none⟩, 1, 0, []⟩

/-- A tags-feed entry with the same post id 1 but different content. -/
def tagsEntry : FeedPost :=
  ⟨1, "from tags feed", 5, ⟨2, "alice", none⟩, ⟨3, "camera", none⟩, 2, 0, []⟩

/-- An unrelated entry with a different post id. -/
def otherEntry : FeedPost :=
  ⟨8, "unrelated", 4, ⟨2, "alice", none⟩, ⟨3, "camera", none⟩, 0, 0, []⟩

deriving instance DecidableEq for Except

/-! ### Generic lemmas about the stable sort -/

theorem stableInsert_perm (le : α → α → Bool) (x : α) :
    ∀ l : List α, (stableInsert le x l).Perm (x :: l)
  | [] => List.Perm.refl _
  | y :: ys => by
    rw [stableInsert]
    by_cases h : le x y
    · rw [if_pos h]
    · rw [if_neg h]
      exact ((stableInsert_perm le x ys).cons y).trans (List.Perm.swap x y ys)

theorem stableSort_perm (le : α → α → Bool) :
    ∀ l : List α, (stableSort le l).Perm l
  | [] => List.Perm.refl _
  | x :: xs =>
    (stableInsert_perm le x (stableSort le xs)).trans ((stableSort_perm le xs).cons x)

theorem pairwise_stableInsert (le : α → α → Bool)
    (htot : ∀ a b, le a b || le b a)
    (htrans : ∀ a b c, le a b → le b c → le a c) (x : α) :
    ∀ l : List α, l.Pairwise (fun a b => le a b = true) →
      (stableInsert le x l).Pairwise (fun a b => le a b = true) := by
  intro l
  induction l with
  | nil => intro _; exact List.pairwise_singleton _ _
  | cons y ys ih =>
    intro hl
    rw [List.pairwise_cons] at hl
    rw [stableInsert]
    by_cases h : le x y
    · rw [if_pos h, List.pairwise_cons]
      refine ⟨?_, List.pairwise_cons.mpr hl⟩
      intro z hz
      rcases List.mem_cons.mp hz with rfl | hz
      · exact h
      · exact htrans x y z h (hl.1 z hz)
    · rw [if_neg h, List.pairwise_cons]
      have hyx : le y x := by
        rcases Bool.or_eq_true_iff.mp (htot x y) with hxy | hyx
        · exact absurd hxy h
        · exact hyx
      refine ⟨?_, ih hl.2⟩
      intro z hz
      rcases List.mem_cons.mp ((stableInsert_perm le x ys).mem_iff.mp hz) with rfl | hz
      · exact hyx
      · exact hl.1 z hz

theorem pairwise_stableSort (le : α → α → Bool)
    (htot : ∀ a b, le a b || le b a)
    (htrans : ∀ a b c, le a b → le b c → le a c) :
    ∀ l : List α, (stableSort le l).Pairwise (fun a b => le a b = true)
  | [] => List.Pairwise.nil
  | x :: xs =>
    pairwise_stableInsert le htot htrans x _ (pairwise_stableSort le htot htrans xs)

/-! ### The two comparators are total and transitive -/

theorem rowLeDesc_total (a b : SelectedRow) : rowLeDesc a b || rowLeDesc b a := by
  unfold rowLeDesc
  rcases a.createdAt with _ | x <;> rcases b.createdAt with _ | y <;> simp
  exact Int.le_total y x

theorem rowLeDesc_trans (a b c : SelectedRow) :
    rowLeDesc a b → rowLeDesc b c → rowLeDesc a c := by
  unfold rowLeDesc
  rcases a.createdAt with _ | x <;> rcases b.createdAt with _ | y <;>
    rcases c.createdAt with _ | z <;> simp
  exact fun h1 h2 => le_trans h2 h1

theorem feedLeDesc_total (a b : FeedPost) : feedLeDesc a b || feedLeDesc b a := by
  unfold feedLeDesc
  simp [Int.le_total b.createdAt a.createdAt]

theorem feedLeDesc_trans (a b c : FeedPost) :
    feedLeDesc a b → feedLeDesc b c → feedLeDesc a c := by
  unfold feedLeDesc
  simp only [decide_eq_true_eq]
  exact fun h1 h2 => le_trans h2 h1

/-! ### Parsing lemmas -/

theorem validRow_toRaw (p : FeedPost) : validRow (toRaw p) = true := rfl

theorem toFeedPost_toRaw (p : FeedPost) : toFeedPost (toRaw p) = p := rfl

theorem parseFeedList_toRaw (msg : String) (l : List FeedPost) :
    parseFeedList msg (l.map toRaw) = .ok l := by
  unfold parseFeedList
  rw [if_pos]
  · rw [List.map_map]
    have : toFeedPost ∘ toRaw = id := funext toFeedPost_toRaw
    rw [this, List.map_id]
  · exact List.all_eq_true.mpr fun r hr => by
      rcases List.mem_map.mp hr with ⟨p, _, rfl⟩
      exact validRow_toRaw p

/-- `getCombinedFeed` is exactly: paginate the merged sorted set. -/
theorem getCombinedFeed_eq (db : DB) (userId limit offset : Nat) :
    getCombinedFeed db userId limit offset =
      (mergedSortedSet db userId).map fun m => (m.drop offset).take limit := by
  unfold getCombinedFeed mergedSortedSet
  cases getFollowingUsersFeed db userId 100 0 with
  | error e => rfl
  | ok usersFeed =>
    cases getFollowingTagsFeed db userId 100 0 with
    | error e => rfl
    | ok tagsFeed =>
      simp only [Except.bind, Except.map]
      exact parseFeedList_toRaw _ _

/-! ### Sortedness of query results and of parsed outputs -/

theorem pairwise_queryFeedPosts (db : DB) (cond : PostRow → Bool) (limit offset : Nat) :
    (queryFeedPosts db cond limit offset).Pairwise (fun a b => rowLeDesc a b = true) := by
  unfold queryFeedPosts
  have hs := pairwise_stableSort rowLeDesc rowLeDesc_total rowLeDesc_trans
    ((db.posts.filter cond).filterMap (selectFeedRow db))
  exact List.Pairwise.sublist ((List.take_sublist _ _).trans (List.drop_sublist _ _)) hs

theorem chain'_parse_of_pairwise (db : DB) (msg : String) (rows : List SelectedRow)
    (hs : rows.Pairwise (fun a b => rowLeDesc a b = true)) (out : List FeedPost)
    (hok : parseFeedList msg (rows.map (enrichRow db)) = .ok out) :
    out.Chain' (fun a b => b.createdAt ≤ a.createdAt) := by
  unfold parseFeedList at hok
  by_cases hall : (rows.map (enrichRow db)).all validRow
  · rw [if_pos hall] at hok
    injection hok with hout
    subst hout
    have hv : ∀ r ∈ rows, r.createdAt.isSome := by
      intro r hr
      have := List.all_eq_true.mp hall (enrichRow db r) (List.mem_map_of_mem _ hr)
      simpa [validRow, enrichRow] using this
    rw [List.map_map]
    apply List.Pairwise.chain'
    rw [List.pairwise_map]
    refine hs.imp_of_mem ?_
    intro a b ha hb hle
    rcases Option.isSome_iff_exists.mp (hv a ha) with ⟨x, hx⟩
    rcases Option.isSome_iff_exists.mp (hv b hb) with ⟨y, hy⟩
    show (toFeedPost (enrichRow db b)).createdAt ≤ (toFeedPost (enrichRow db a)).createdAt
    unfold toFeedPost enrichRow
    unfold rowLeDesc at hle
    simp only [hx, hy] at hle ⊢
    simpa using hle
  · rw [if_neg hall] at hok
    cases hok

/-! ### Post-id distinctness through the pipeline -/

theorem selectFeedRow_id (db : DB) (post : PostRow) (r : SelectedRow) :
    selectFeedRow db post = some r → r.id = post.id := by
  unfold selectFeedRow
  cases db.users.find? (fun u => u.id == post.authorId) with
  | none => intro h; cases h
  | some author =>
    cases db.items.find? (fun i => i.id == post.itemId) with
    | none => intro h; cases h
    | some item => intro h; injection h with h; subst h; rfl

theorem filterMap_selectFeedRow_ids_nodup (db : DB) :
    ∀ l : List PostRow, (l.map (fun p => p.id)).Nodup →
      ((l.filterMap (selectFeedRow db)).map (fun r => r.id)).Nodup := by
  intro l
  induction l with
  | nil => intro _; simp
  | cons p ps ih =>
    intro h
    rw [List.map_cons, List.nodup_cons] at h
    rw [List.filterMap_cons]
    cases hsel : selectFeedRow db p with
    | none => exact ih h.2
    | some r =>
      rw [List.map_cons, List.nodup_cons]
      refine ⟨?_, ih h.2⟩
      intro hmem
      rcases List.mem_map.mp hmem with ⟨r', hr', hid⟩
      rcases List.mem_filterMap.mp hr' with ⟨p', hp', hsel'⟩
      exact h.1 (List.mem_map.mpr ⟨p', hp',
        by rw [← selectFeedRow_id db p' r' hsel', hid, selectFeedRow_id db p r hsel]⟩)

theorem queryFeedPosts_ids_nodup (db : DB) (cond : PostRow → Bool) (limit offset : Nat)
    (h : (db.posts.map (fun p => p.id)).Nodup) :
    ((queryFeedPosts db cond limit offset).map (fun r => r.id)).Nodup := by
  unfold queryFeedPosts
  have h1 : ((db.posts.filter cond).map (fun p => p.id)).Nodup :=
    ((List.filter_sublist db.posts).map (fun p => p.id)).nodup h
  have h2 := filterMap_selectFeedRow_ids_nodup db _ h1
  have h3 : ((stableSort rowLeDesc
      ((db.posts.filter cond).filterMap (selectFeedRow db))).map (fun r => r.id)).Nodup :=
    (((stableSort_perm rowLeDesc _).map (fun r : SelectedRow => r.id)).nodup_iff).mpr h2
  exact (((List.take_sublist _ _).trans (List.drop_sublist _ _)).map
    (fun r : SelectedRow => r.id)).nodup h3

theorem parse_ids_eq (db : DB) (msg : String) (rows : List SelectedRow)
    (out : List FeedPost)
    (hok : parseFeedList msg (rows.map (enrichRow db)) = .ok out) :
    out.map (fun p => p.id) = rows.map (fun r => r.id) := by
  unfold parseFeedList at hok
  by_cases hall : (rows.map (enrichRow db)).all validRow
  · rw [if_pos hall] at hok
    injection hok with hout
    subst hout
    rw [List.map_map, List.map_map]
    rfl
  · rw [if_neg hall] at hok
    cases hok

/-! ### The `Map`-based dedup yields distinct keys, each bound to an
entry carrying that key as its post id -/

theorem mapSet_keys (m : List (Nat × FeedPost)) (k : Nat) (v : FeedPost) :
    (mapSet m k v).map (fun e => e.1) =
      if m.any (fun e => e.1 == k) then m.map (fun e => e.1)
      else m.map (fun e => e.1) ++ [k] := by
  unfold mapSet
  by_cases h : m.any (fun e => e.1 == k)
  · rw [if_pos h, if_pos h, List.map_map]
    refine List.map_congr_left ?_
    intro e _
    by_cases he : e.1 == k
    · simp only [Function.comp_apply, if_pos he]
      exact (beq_iff_eq.mp he).symm
    · simp only [Function.comp_apply, if_neg he]
  · rw [if_neg h, if_neg h, List.map_append]
    rfl

theorem dedup_fold_invariant (l : List FeedPost) :
    ∀ m : List (Nat × FeedPost),
      ((m.map (fun e => e.1)).Nodup) → (∀ e ∈ m, (e.2).id = e.1) →
      (((l.foldl (fun m p => mapSet m p.id p) m).map (fun e => e.1)).Nodup) ∧
      (∀ e ∈ l.foldl (fun m p => mapSet m p.id p) m, (e.2).id = e.1) := by
  induction l with
  | nil => intro m hn hv; exact ⟨hn, hv⟩
  | cons p ps ih =>
    intro m hn hv
    rw [List.foldl_cons]
    refine ih (mapSet m p.id p) ?_ ?_
    · rw [mapSet_keys]
      by_cases h : m.any (fun e => e.1 == p.id)
      · rw [if_pos h]; exact hn
      · rw [if_neg h]
        rw [List.nodup_append]
        refine ⟨hn, List.nodup_singleton _, ?_⟩
        intro k hk hk1
        rcases List.mem_map.mp hk with ⟨e, he, rfl⟩
        rw [List.mem_singleton] at hk1
        rw [List.any_eq_true] at h
        exact h ⟨e, he, by rw [hk1]; exact beq_iff_eq.mpr rfl⟩
    · intro e he
      unfold mapSet at he
      by_cases h : m.any (fun e => e.1 == p.id)
      · rw [if_pos h] at he
        rcases List.mem_map.mp he with ⟨e', he', rfl⟩
        by_cases he1 : e'.1 == p.id
        · rw [if_pos he1]
        · rw [if_neg he1]; exact hv e' he'
      · rw [if_neg h] at he
        rcases List.mem_append.mp he with he' | he'
        · exact hv e he'
        · rw [List.mem_singleton] at he'
          subst he'; rfl

theorem dedupById_ids_nodup (l : List FeedPost) :
    ((dedupById l).map (fun p => p.id)).Nodup := by
  unfold dedupById
  rcases dedup_fold_invariant l [] (by simp) (by simp) with ⟨hn, hv⟩
  rw [List.map_map]
  have : ((l.foldl (fun m p => mapSet m p.id p) []).map
      ((fun p : FeedPost => p.id) ∘ (fun e : Nat × FeedPost => e.2))) =
      (l.foldl (fun m p => mapSet m p.id p) []).map (fun e => e.1) :=
    List.map_congr_left fun e he => hv e he
  rw [this]
  exact hn

/-! ### A post whose author or item row is gone contributes nothing -/

theorem selectFeedRow_none (db : DB) (post : PostRow)
    (h : db.users.find? (fun u => u.id == post.authorId) = none ∨
         db.items.find? (fun i => i.id == post.itemId) = none) :
    selectFeedRow db post = none := by
  unfold selectFeedRow
  rcases h with h | h
  · rw [h]
  · cases db.users.find? (fun u => u.id == post.authorId) with
    | none => rfl
    | some author => rw [h]

theorem queryFeedPosts_erase_dead (db : DB) (cond : PostRow → Bool)
    (limit offset : Nat) (l1 l2 : List PostRow) (p : PostRow)
    (hsplit : db.posts = l1 ++ p :: l2)
    (hdead : selectFeedRow db p = none) :
    queryFeedPosts { db with posts := l1 ++ l2 } cond limit offset =
      queryFeedPosts db cond limit offset := by
  unfold queryFeedPosts
  have hsel : selectFeedRow { db with posts := l1 ++ l2 } = selectFeedRow db := rfl
  have hposts : ({ db with posts := l1 ++ l2 } : DB).posts = l1 ++ l2 := rfl
  rw [hsel, hposts, hsplit]
  have : (List.filter cond (l1 ++ l2)).filterMap (selectFeedRow db) =
      (List.filter cond (l1 ++ p :: l2)).filterMap (selectFeedRow db) := by
    rw [List.filter_append, List.filter_append, List.filterMap_append,
      List.filterMap_append, List.filter_cons]
    by_cases hc : cond p
    · rw [if_pos hc, List.filterMap_cons, hdead]
    · rw [if_neg hc]
  rw [this]

/-! ### Small reduction lemmas for `Except` -/

theorem except_map_ok (f : α → β) (a : α) :
    (Except.ok a : Except String α).map f = .ok (f a) := rfl

theorem except_map_error (f : α → β) (e : String) :
    (Except.error e : Except String α).map f = .error e := rfl

theorem except_bind_ok (f : α → Except String β) (a : α) :
    (Except.ok a : Except String α).bind f = f a := rfl

theorem except_bind_error (f : α → Except String β) (e : String) :
    (Except.error e : Except String α).bind f = .error e := rfl

/-! ## Claim theorems -/

/-- **C3.** For every viewerId, limit and offset, `getCombinedFeed`
requests each of the two sources with the fixed window `limit = 100`,
`offset = 0`, regardless of the caller's requested limit and offset;
the caller's limit/offset are applied only as the final slice of the
merged, deduplicated, sorted set. -/
theorem getCombinedFeed_overfetch_window :
    ∀ (db : DB) (userId limit offset : Nat),
      getCombinedFeed db userId limit offset =
        (getFollowingUsersFeed db userId 100 0).bind fun usersFeed =>
          (getFollowingTagsFeed db userId 100 0).map fun tagsFeed =>
            ((stableSort feedLeDesc (dedupById (usersFeed ++ tagsFeed))).drop
              offset).take limit := by
  intro db userId limit offset
  rw [getCombinedFeed_eq]
  unfold mergedSortedSet
  cases getFollowingUsersFeed db userId 100 0 with
  | error e => rfl
  | ok usersFeed =>
    cases getFollowingTagsFeed db userId 100 0 with
    | error e => rfl
    | ok tagsFeed => rfl

/-- **C9.** `getCombinedFeed` returns exactly the entries
`[offset, offset+limit)` of the merged, deduplicated, sorted set, and
an offset at or beyond the set's length yields `ok []`, never an
error. -/
theorem getCombinedFeed_slice_semantics :
    ∀ (db : DB) (userId limit offset : Nat) (m : List FeedPost),
      mergedSortedSet db userId = .ok m →
      getCombinedFeed db userId limit offset = .ok ((m.drop offset).take limit) ∧
      (m.length ≤ offset → getCombinedFeed db userId limit offset = .ok []) := by
  intro db userId limit offset m hm
  have h := getCombinedFeed_eq db userId limit offset
  rw [hm, except_map_ok] at h
  refine ⟨h, fun hlen => ?_⟩
  rw [h, List.drop_eq_nil_of_le hlen, List.take_nil]

/-- Witness for C9 at the concrete scenario database: the merged set
has the four entries, and an offset of 10 (beyond its length 4)
yields `ok []`. -/
theorem getCombinedFeed_slice_semantics_witness :
    mergedSortedSet dbC5 10 = .ok [entryT4, entryT3, entryT2, entryT1] ∧
    getCombinedFeed dbC5 10 5 10 = .ok [] := by
  refine ⟨by decide, ?_⟩
  exact (getCombinedFeed_slice_semantics dbC5 10 5 10
    [entryT4, entryT3, entryT2, entryT1] (by decide)).2 (by decide)

/-- **C6.** Pagination slice law: a page of size `L` at offset `O`
followed by a page of size `L` at offset `O + L` equals the page of
size `2·L` at offset `O` (the underlying dataset, hence the merged
sorted set, is fixed across the three calls).  The claim's premise
that the merged set holds at least `O + 2·L` entries is not even
needed. -/
theorem getCombinedFeed_pagination_slice_law :
    ∀ (db : DB) (userId L O : Nat) (xs ys zs : List FeedPost),
      getCombinedFeed db userId L O = .ok xs →
      getCombinedFeed db userId L (O + L) = .ok ys →
      getCombinedFeed db userId (2 * L) O = .ok zs →
      xs ++ ys = zs := by
  intro db userId L O xs ys zs h1 h2 h3
  rw [getCombinedFeed_eq] at h1 h2 h3
  cases hm : mergedSortedSet db userId with
  | error e =>
    rw [hm, except_map_error] at h1
    cases h1
  | ok m =>
    rw [hm, except_map_ok] at h1 h2 h3
    injection h1 with h1
    injection h2 with h2
    injection h3 with h3
    subst h1 h2 h3
    rw [two_mul, List.take_add, List.drop_drop]

/-- Witness for C6 at the concrete scenario database with `L = 2`,
`O = 0`. -/
theorem getCombinedFeed_pagination_slice_law_witness :
    [entryT4, entryT3] ++ [entryT2, entryT1] = [entryT4, entryT3, entryT2, entryT1] :=
  getCombinedFeed_pagination_slice_law dbC5 10 2 0 _ _ _
    (by decide) (by decide) (by decide)

/-- **C5.** Concrete scenario: with viewer 10 following users A and B
and tag T as in `dbC5`, the combined feed is `[t=4 (C), t=3 (A),
t=2 (B), t=1 (A)]`; when A's t=3 post additionally carries tag T
(`dbC5b`), the output is the same four posts in the same order, with
no duplicate of A's t=3 post (its entry now lists tag T). -/
theorem getCombinedFeed_concrete_scenario :
    getCombinedFeed dbC5 10 10 0 = .ok [entryT4, entryT3, entryT2, entryT1] ∧
    getCombinedFeed dbC5b 10 10 0 = .ok [entryT4, entryT3tagged, entryT2, entryT1] ∧
    [entryT4, entryT3tagged, entryT2, entryT1].map (fun p => p.id) =
      [entryT4, entryT3, entryT2, entryT1].map (fun p => p.id) := by
  refine ⟨by decide, by decide, by decide⟩

/-- **C7.** If the viewer's followed-user set is empty,
`getFollowingUsersFeed` returns `ok []` immediately; likewise for
`getFollowingTagsFeed` with an empty followed-tag set.  The statement
quantifies over every database with the given (tag)follow rows, so the
result in particular does not depend on the contents of any other
table: no candidate-post or post query influences it. -/
theorem feed_empty_follow_short_circuit :
    ∀ (db : DB) (userId limit offset : Nat),
      ((db.follows.filter (fun f => f.1 == userId)).length = 0 →
        getFollowingUsersFeed db userId limit offset = .ok []) ∧
      ((db.tagFollows.filter (fun f => f.1 == userId)).length = 0 →
        getFollowingTagsFeed db userId limit offset = .ok []) := by
  intro db userId limit offset
  constructor
  · intro h
    unfold getFollowingUsersFeed
    rw [h]
    rfl
  · intro h
    unfold getFollowingTagsFeed
    rw [h]
    rfl

/-- Witness for C7: viewer 10 has no relationships in `dbNoFollows`
(only user 9 does), and both single-source feeds return `ok []`. -/
theorem feed_empty_follow_short_circuit_witness :
    (dbNoFollows.follows.filter (fun f => f.1 == 10)).length = 0 ∧
    (dbNoFollows.tagFollows.filter (fun f => f.1 == 10)).length = 0 ∧
    getFollowingUsersFeed dbNoFollows 10 20 0 = .ok [] ∧
    getFollowingTagsFeed dbNoFollows 10 20 0 = .ok [] :=
  ⟨by decide, by decide,
    (feed_empty_follow_short_circuit dbNoFollows 10 20 0).1 (by decide),
    (feed_empty_follow_short_circuit dbNoFollows 10 20 0).2 (by decide)⟩

/-- **C1, counterexample.** The dedup step of `getCombinedFeed` does
NOT retain the first occurrence's entry: on a users-feed entry and a
tags-feed entry sharing post id 1 but disagreeing on content, the
JavaScript `Map` keeps the LAST value written, i.e. the tags-feed
entry, not the users-feed one. -/
theorem dedupById_keeps_last_not_first :
    dedupById ([usersEntry] ++ [tagsEntry]) = [tagsEntry] ∧
    tagsEntry ≠ usersEntry ∧
    dedupById ([usersEntry] ++ [tagsEntry]) ≠ [usersEntry] := by
  refine ⟨by decide, by decide, by decide⟩

/-- **C1, amended.** Deduplication keeps each post id at the position
of its first occurrence (users feed first), but the entry retained for
a duplicated id is the LAST one in the concatenated list, i.e. the
tags-feed entry.  (When both sources carry the same value for the id —
the only situation this code produces — the result is indistinguishable
from first-occurrence-wins.) -/
theorem dedupById_first_position_last_value :
    ∀ (p r q : FeedPost), p.id = q.id → r.id ≠ p.id →
      dedupById ([p, r] ++ [q]) = [q, r] := by
  intro p r q hpq hr
  have h1 : (p.id == q.id) = true := beq_iff_eq.mpr hpq
  have h2 : (p.id == r.id) = false := beq_eq_false_iff_ne.mpr fun h => hr h.symm
  have h3 : (r.id == q.id) = false := beq_eq_false_iff_ne.mpr fun h => hr (h.trans hpq.symm)
  have h4 : r.id ≠ q.id := fun h => hr (h.trans hpq.symm)
  have h5 : q.id ≠ r.id := fun h => h4 h.symm
  simp [dedupById, mapSet, h1, h2, h3, hpq, h4, h5]

/-- Witness for the amended C1: with the two disagreeing entries for
post id 1 around an unrelated entry, the duplicated id stays at the
first position and carries the last (tags-feed) value. -/
theorem dedupById_first_position_last_value_witness :
    usersEntry.id = tagsEntry.id ∧ otherEntry.id ≠ usersEntry.id ∧
    dedupById ([usersEntry, otherEntry] ++ [tagsEntry]) = [tagsEntry, otherEntry] :=
  ⟨rfl, by decide,
    dedupById_first_position_last_value usersEntry otherEntry tagsEntry rfl (by decide)⟩

/-- **C2, counterexample.** A row failing required-field validation is
NOT excluded with the request succeeding: in `badDb` the only enriched
row has a NULL `created_at`, and `getFollowingUsersFeed` (and with it
`getCombinedFeed`) fails the whole request with the HTTP 500
validation error instead of returning the remaining (empty) list. -/
theorem validation_failure_not_filtered :
    getFollowingUsersFeed badDb 10 20 0 = .error "users_feed_validation_failed" ∧
    getFollowingUsersFeed badDb 10 20 0 ≠ .ok [] ∧
    getCombinedFeed badDb 10 20 0 = .error "users_feed_validation_failed" := by
  refine ⟨by decide, by decide, by decide⟩

/-- **C2, amended.** A row failing required-field validation is fatal
for the whole feed request: if the viewer follows at least one user and
any enriched row fails validation, `getFollowingUsersFeed` throws the
validation `HTTPException(500)` (no filtering); and an error of a
source propagates as the error of the whole combined page. -/
theorem validation_failure_is_fatal :
    ∀ (db : DB) (userId limit offset : Nat),
      ((db.follows.filter (fun f => f.1 == userId)).length ≠ 0 →
        (usersFeedRows db userId limit offset).all validRow = false →
        getFollowingUsersFeed db userId limit offset =
          .error "users_feed_validation_failed") ∧
      (∀ e, getFollowingUsersFeed db userId 100 0 = .error e →
        getCombinedFeed db userId limit offset = .error e) := by
  intro db userId limit offset
  constructor
  · intro hne hbad
    unfold getFollowingUsersFeed
    have hcond : ((db.follows.filter (fun f => f.1 == userId)).length == 0) = false :=
      beq_eq_false_iff_ne.mpr hne
    rw [hcond]
    unfold parseFeedList
    rw [hbad]
    rfl
  · intro e he
    unfold getCombinedFeed
    rw [he]

/-- Witness for the amended C2 at `badDb`. -/
theorem validation_failure_is_fatal_witness :
    (badDb.follows.filter (fun f => f.1 == 10)).length ≠ 0 ∧
    (usersFeedRows badDb 10 20 0).all validRow = false ∧
    getFollowingUsersFeed badDb 10 20 0 = .error "users_feed_validation_failed" ∧
    getCombinedFeed badDb 10 20 0 = .error "users_feed_validation_failed" :=
  ⟨by decide, by decide,
    (validation_failure_is_fatal badDb 10 20 0).1 (by decide) (by decide),
    (validation_failure_is_fatal badDb 10 20 0).2 "users_feed_validation_failed" (by decide)⟩

/-- **C4.** Every list returned by `getFollowingUsersFeed`,
`getFollowingTagsFeed` or `getCombinedFeed` is sorted by creation
timestamp descending: every pair of adjacent entries `(a, b)` satisfies
`a.createdAt ≥ b.createdAt`. -/
theorem feed_sorted_by_createdAt_desc :
    ∀ (db : DB) (userId limit offset : Nat) (out : List FeedPost),
      (getFollowingUsersFeed db userId limit offset = .ok out →
        out.Chain' (fun a b => b.createdAt ≤ a.createdAt)) ∧
      (getFollowingTagsFeed db userId limit offset = .ok out →
        out.Chain' (fun a b => b.createdAt ≤ a.createdAt)) ∧
      (getCombinedFeed db userId limit offset = .ok out →
        out.Chain' (fun a b => b.createdAt ≤ a.createdAt)) := by
  intro db userId limit offset out
  refine ⟨?_, ?_, ?_⟩
  · intro h
    unfold getFollowingUsersFeed at h
    by_cases hc : (db.follows.filter (fun f => f.1 == userId)).length == 0
    · rw [if_pos hc] at h
      injection h with h
      subst h
      exact List.chain'_nil
    · rw [if_neg hc] at h
      unfold usersFeedRows at h
      exact chain'_parse_of_pairwise db _ _
        (pairwise_queryFeedPosts db _ limit offset) out h
  · intro h
    unfold getFollowingTagsFeed at h
    by_cases hc : (db.tagFollows.filter (fun f => f.1 == userId)).length == 0
    · rw [if_pos hc] at h
      injection h with h
      subst h
      exact List.chain'_nil
    · rw [if_neg hc] at h
      by_cases hc2 : (candidateTagPostIds db userId).length == 0
      · rw [if_pos hc2] at h
        injection h with h
        subst h
        exact List.chain'_nil
      · rw [if_neg hc2] at h
        unfold tagsFeedRows at h
        exact chain'_parse_of_pairwise db _ _
          (pairwise_queryFeedPosts db _ limit offset) out h
  · intro h
    rw [getCombinedFeed_eq] at h
    cases hm : mergedSortedSet db userId with
    | error e =>
      rw [hm, except_map_error] at h
      cases h
    | ok m =>
      rw [hm, except_map_ok] at h
      injection h with h
      subst h
      unfold mergedSortedSet at hm
      cases h1 : getFollowingUsersFeed db userId 100 0 with
      | error e =>
        rw [h1, except_bind_error] at hm
        cases hm
      | ok usersFeed =>
        rw [h1, except_bind_ok] at hm
        cases h2 : getFollowingTagsFeed db userId 100 0 with
        | error e =>
          rw [h2, except_map_error] at hm
          cases hm
        | ok tagsFeed =>
          rw [h2, except_map_ok] at hm
          injection hm with hm
          subst hm
          have hp := pairwise_stableSort feedLeDesc feedLeDesc_total feedLeDesc_trans
            (dedupById (usersFeed ++ tagsFeed))
          have hs : List.Pairwise (fun a b => feedLeDesc a b = true)
              (((stableSort feedLeDesc (dedupById (usersFeed ++ tagsFeed))).drop
                offset).take limit) :=
            List.Pairwise.sublist
              ((List.take_sublist _ _).trans (List.drop_sublist _ _)) hp
          exact (hs.imp fun hab => by simpa [feedLeDesc] using hab).chain'

/-- Witness for C4 at the concrete scenario database. -/
theorem feed_sorted_by_createdAt_desc_witness :
    getCombinedFeed dbC5 10 10 0 = .ok [entryT4, entryT3, entryT2, entryT1] ∧
    List.Chain' (fun a b : FeedPost => b.createdAt ≤ a.createdAt)
      [entryT4, entryT3, entryT2, entryT1] :=
  ⟨by decide,
    (feed_sorted_by_createdAt_desc dbC5 10 10 0
      [entryT4, entryT3, entryT2, entryT1]).2.2 (by decide)⟩

/-- **C10.** Under the `posts` primary key (distinct post ids in the
table), every list returned by `getFollowingUsersFeed`,
`getFollowingTagsFeed` or `getCombinedFeed` has pairwise-distinct post
ids; for the combined feed the `Map`-based dedup guarantees this even
without the hypothesis. -/
theorem feed_post_ids_nodup :
    ∀ (db : DB) (userId limit offset : Nat),
      (db.posts.map (fun p => p.id)).Nodup →
      ∀ out : List FeedPost,
        (getFollowingUsersFeed db userId limit offset = .ok out →
          (out.map (fun p => p.id)).Nodup) ∧
        (getFollowingTagsFeed db userId limit offset = .ok out →
          (out.map (fun p => p.id)).Nodup) ∧
        (getCombinedFeed db userId limit offset = .ok out →
          (out.map (fun p => p.id)).Nodup) := by
  intro db userId limit offset hposts out
  refine ⟨?_, ?_, ?_⟩
  · intro h
    unfold getFollowingUsersFeed at h
    by_cases hc : (db.follows.filter (fun f => f.1 == userId)).length == 0
    · rw [if_pos hc] at h
      injection h with h
      subst h
      simp
    · rw [if_neg hc] at h
      unfold usersFeedRows at h
      rw [parse_ids_eq db _ _ out h]
      exact queryFeedPosts_ids_nodup db _ limit offset hposts
  · intro h
    unfold getFollowingTagsFeed at h
    by_cases hc : (db.tagFollows.filter (fun f => f.1 == userId)).length == 0
    · rw [if_pos hc] at h
      injection h with h
      subst h
      simp
    · rw [if_neg hc] at h
      by_cases hc2 : (candidateTagPostIds db userId).length == 0
      · rw [if_pos hc2] at h
        injection h with h
        subst h
        simp
      · rw [if_neg hc2] at h
        unfold tagsFeedRows at h
        rw [parse_ids_eq db _ _ out h]
        exact queryFeedPosts_ids_nodup db _ limit offset hposts
  · intro h
    rw [getCombinedFeed_eq] at h
    cases hm : mergedSortedSet db userId with
    | error e =>
      rw [hm, except_map_error] at h
      cases h
    | ok m =>
      rw [hm, except_map_ok] at h
      injection h with h
      subst h
      unfold mergedSortedSet at hm
      cases h1 : getFollowingUsersFeed db userId 100 0 with
      | error e =>
        rw [h1, except_bind_error] at hm
        cases hm
      | ok usersFeed =>
        rw [h1, except_bind_ok] at hm
        cases h2 : getFollowingTagsFeed db userId 100 0 with
        | error e =>
          rw [h2, except_map_error] at hm
          cases hm
        | ok tagsFeed =>
          rw [h2, except_map_ok] at hm
          injection hm with hm
          subst hm
          have hd := dedupById_ids_nodup (usersFeed ++ tagsFeed)
          have hsorted : ((stableSort feedLeDesc
              (dedupById (usersFeed ++ tagsFeed))).map (fun p => p.id)).Nodup :=
            (((stableSort_perm feedLeDesc _).map (fun p : FeedPost => p.id)).nodup_iff).mpr hd
          exact (((List.take_sublist _ _).trans (List.drop_sublist _ _)).map
            (fun p : FeedPost => p.id)).nodup hsorted

/-- Witness for C10 at the concrete scenario database. -/
theorem feed_post_ids_nodup_witness :
    (dbC5.posts.map (fun p => p.id)).Nodup ∧
    getCombinedFeed dbC5 10 10 0 = .ok [entryT4, entryT3, entryT2, entryT1] ∧
    ([entryT4, entryT3, entryT2, entryT1].map (fun p => p.id)).Nodup :=
  ⟨by decide, by decide,
    (feed_post_ids_nodup dbC5 10 10 0 (by decide)
      [entryT4, entryT3, entryT2, entryT1]).2.2 (by decide)⟩

/-- **C8.** A post whose author (or item) row no longer resolves
contributes nothing to any feed: removing such a post from the `posts`
table changes none of the three feed results, so the post is silently
absent and can never turn the request into an error. -/
theorem feed_unresolvable_post_dropped :
    ∀ (db : DB) (userId limit offset : Nat) (l1 l2 : List PostRow) (p : PostRow),
      db.posts = l1 ++ p :: l2 →
      (db.users.find? (fun u => u.id == p.authorId) = none ∨
       db.items.find? (fun i => i.id == p.itemId) = none) →
      getFollowingUsersFeed { db with posts := l1 ++ l2 } userId limit offset =
        getFollowingUsersFeed db userId limit offset ∧
      getFollowingTagsFeed { db with posts := l1 ++ l2 } userId limit offset =
        getFollowingTagsFeed db userId limit offset ∧
      getCombinedFeed { db with posts := l1 ++ l2 } userId limit offset =
        getCombinedFeed db userId limit offset := by
  intro db userId limit offset l1 l2 p hsplit hdead
  have hd := selectFeedRow_none db p hdead
  have hq : ∀ (cond : PostRow → Bool) (l o : Nat),
      queryFeedPosts { db with posts := l1 ++ l2 } cond l o =
        queryFeedPosts db cond l o :=
    fun cond l o => queryFeedPosts_erase_dead db cond l o l1 l2 p hsplit hd
  have husers : ∀ (l o : Nat),
      getFollowingUsersFeed { db with posts := l1 ++ l2 } userId l o =
        getFollowingUsersFeed db userId l o := by
    intro l o
    unfold getFollowingUsersFeed usersFeedRows
    rw [hq]
    exact rfl
  have htags : ∀ (l o : Nat),
      getFollowingTagsFeed { db with posts := l1 ++ l2 } userId l o =
        getFollowingTagsFeed db userId l o := by
    intro l o
    unfold getFollowingTagsFeed tagsFeedRows
    rw [hq]
    exact rfl
  refine ⟨husers limit offset, htags limit offset, ?_⟩
  unfold getCombinedFeed
  rw [husers 100 0, htags 100 0]

/-- Witness for C8: in `dbDangling` the post `pDead` references user 99,
which has no row; dropping it from the table leaves all three feeds
unchanged. -/
theorem feed_unresolvable_post_dropped_witness :
    dbDangling.posts = [pGood] ++ pDead :: [] ∧
    dbDangling.users.find? (fun u => u.id == pDead.authorId) = none ∧
    (getFollowingUsersFeed { dbDangling with posts := [pGood] ++ [] } 10 20 0 =
      getFollowingUsersFeed dbDangling 10 20 0 ∧
    getFollowingTagsFeed { dbDangling with posts := [pGood] ++ [] } 10 20 0 =
      getFollowingTagsFeed dbDangling 10 20 0 ∧
    getCombinedFeed { dbDangling with posts := [pGood] ++ [] } 10 20 0 =
      getCombinedFeed dbDangling 10 20 0) :=
  ⟨rfl, by decide,
    feed_unresolvable_post_dropped dbDangling 10 20 0 [pGood] [] pDead rfl
      (Or.inl (by decide))⟩

end Feed
